import Mathlib

/-!
Verification of the PID controller implemented in
`src/PIDcontroller/PID_most_compact_implementation.ipynb`.

The Python class `PID` holds three gains, three last-computed term values,
the previous timestamp and the previous error.  Python floats are modelled
as rationals, so arithmetic (including the division `de / dt`) is exact.
-/

/-- State of the Python `PID` object: gains `Kp`, `Ki`, `Kd`, correction
terms `Cp`, `Ci` (the integral accumulator), `Cd`, and the bookkeeping
fields `previous_time`, `previous_error`. -/
structure PID where
  Kp : ℚ
  Ki : ℚ
  Kd : ℚ
  Cp : ℚ
  Ci : ℚ
  Cd : ℚ
  previous_time : ℚ
  previous_error : ℚ
deriving DecidableEq

/-- The Python `PID.__init__` with an explicit `origin_time` (the wall-clock
fallback for an omitted `origin_time` is a separate input path, see
`PID.initOpt`): gains are stored, `Cp = Ci = Cd = 0`, `previous_time`
is the origin timestamp and `previous_error = 0`. -/
def PID.init (Kp Ki Kd origin_time : ℚ) : PID :=
  { Kp := Kp, Ki := Ki, Kd := Kd
    Cp := 0, Ci := 0, Cd := 0
    previous_time := origin_time, previous_error := 0 }

/-- `PID.__init__` with its optional `origin_time` argument: when the caller
passes `none`, the constructor reads the wall clock (`time.time()`),
modelled here as the explicit input `clock`. -/
def PID.initOpt (clock : ℚ) (Kp Ki Kd : ℚ) (origin_time : Option ℚ) : PID :=
  match origin_time with
  | none => PID.init Kp Ki Kd clock
  | some t => PID.init Kp Ki Kd t

/-- The Python `PID.Update` on the explicit-timestamp path, returning the
mutated object together with the returned correction.  Mirrors the source:
`dt = current_time - self.previous_time`; if `dt <= 0` return `0` without
touching any field; otherwise set `Cp`, accumulate `Ci`, set `Cd = de / dt`,
update `previous_time` and `previous_error`, and return
`Kp*Cp + Ki*Ci + Kd*Cd` read from the mutated fields. -/
def PID.Update (s : PID) (error current_time : ℚ) : PID × ℚ :=
  let dt := current_time - s.previous_time
  if dt ≤ 0 then (s, 0)
  else
    let de := error - s.previous_error
    let s' : PID :=
      { s with
        Cp := error
        Ci := s.Ci + error * dt
        Cd := de / dt
        previous_time := current_time
        previous_error := error }
    (s', s'.Kp * s'.Cp + s'.Ki * s'.Ci + s'.Kd * s'.Cd)

/-- `PID.Update` with its optional `current_time` argument: when the caller
passes `none`, the method reads the wall clock (`time.time()`), modelled
here as the explicit input `clock`. -/
def PID.UpdateOpt (clock : ℚ) (s : PID) (error : ℚ) (current_time : Option ℚ) :
    PID × ℚ :=
  match current_time with
  | none => s.Update error clock
  | some t => s.Update error t

/-- `PID.Update` re-expressed with Python's failure semantics made explicit:
the body performs one division, `de / dt`, which in Python raises
`ZeroDivisionError` when `dt` is zero; every other statement is total.
`UpdateE` returns `Except.error` exactly where the Python method could
raise. -/
def PID.UpdateE (s : PID) (error current_time : ℚ) :
    Except String (PID × ℚ) :=
  let dt := current_time - s.previous_time
  if dt ≤ 0 then Except.ok (s, 0)
  else
    let de := error - s.previous_error
    if dt = 0 then Except.error "ZeroDivisionError"
    else
      let s' : PID :=
        { s with
          Cp := error
          Ci := s.Ci + error * dt
          Cd := de / dt
          previous_time := current_time
          previous_error := error }
      Except.ok (s', s'.Kp * s'.Cp + s'.Ki * s'.Ci + s'.Kd * s'.Cd)

/-- Run a sequence of `Update` calls, each given as an
`(error, current_time)` pair, discarding the returned corrections. -/
def PID.runUpdates (s : PID) (calls : List (ℚ × ℚ)) : PID :=
  calls.foldl (fun st c => (st.Update c.1 c.2).1) s

/-! ### Helper lemmas -/

/-- When `dt ≤ 0` the call returns `0` and the whole state is untouched. -/
lemma PID.update_noop (s : PID) (e t : ℚ) (h : t - s.previous_time ≤ 0) :
    s.Update e t = (s, 0) := by
  simp only [PID.Update]
  rw [if_pos h]

/-- When `dt > 0` the call performs the full PID step. -/
lemma PID.update_step (s : PID) (e t : ℚ) (h : 0 < t - s.previous_time) :
    s.Update e t =
      ({ s with
          Cp := e
          Ci := s.Ci + e * (t - s.previous_time)
          Cd := (e - s.previous_error) / (t - s.previous_time)
          previous_time := t
          previous_error := e },
        s.Kp * e + s.Ki * (s.Ci + e * (t - s.previous_time))
          + s.Kd * ((e - s.previous_error) / (t - s.previous_time))) := by
  simp only [PID.Update]
  rw [if_neg (not_le.mpr h)]

/-- A single `Update` call never changes the three gain fields. -/
lemma PID.update_gains (s : PID) (e t : ℚ) :
    (s.Update e t).1.Kp = s.Kp ∧ (s.Update e t).1.Ki = s.Ki ∧
      (s.Update e t).1.Kd = s.Kd := by
  simp only [PID.Update]
  split
  · exact ⟨rfl, rfl, rfl⟩
  · exact ⟨rfl, rfl, rfl⟩

/-- A single `Update` call never decreases `previous_time`. -/
lemma PID.update_time_mono (s : PID) (e t : ℚ) :
    s.previous_time ≤ (s.Update e t).1.previous_time := by
  simp only [PID.Update]
  split
  · exact le_refl _
  · exact le_of_lt (by linarith [not_le.mp (by assumption)])

/-! ### Claims -/

/-- C1: for every controller state and every call `update(error, current_time)`
with `dt = current_time - previous_time > 0`, the call sets `de = error -
previous_error`, sets the proportional term to `error`, adds `error * dt` to
the integral accumulator, sets the derivative term to `de / dt`, sets
`previous_time` to `current_time` and `previous_error` to `error`, and
returns `Kp * Cp + Ki * Ci + Kd * Cd` computed from the post-update fields. -/
theorem update_dt_pos_spec (s : PID) (e t : ℚ)
    (h : 0 < t - s.previous_time) :
    s.Update e t =
      ({ s with
          Cp := e
          Ci := s.Ci + e * (t - s.previous_time)
          Cd := (e - s.previous_error) / (t - s.previous_time)
          previous_time := t
          previous_error := e },
        s.Kp * e + s.Ki * (s.Ci + e * (t - s.previous_time))
          + s.Kd * ((e - s.previous_error) / (t - s.previous_time))) :=
  PID.update_step s e t h

/-- Witness for C1 at the concrete state `PID.init 1 1 1 0` with
`error = 2`, `current_time = 1`. -/
theorem update_dt_pos_spec_witness :
    0 < (1 : ℚ) - (PID.init 1 1 1 0).previous_time ∧
      (PID.init 1 1 1 0).Update 2 1 =
        ({ PID.init 1 1 1 0 with
            Cp := 2
            Ci := (PID.init 1 1 1 0).Ci + 2 * ((1 : ℚ) - (PID.init 1 1 1 0).previous_time)
            Cd := ((2 : ℚ) - (PID.init 1 1 1 0).previous_error)
              / ((1 : ℚ) - (PID.init 1 1 1 0).previous_time)
            previous_time := 1
            previous_error := 2 },
          (PID.init 1 1 1 0).Kp * 2
            + (PID.init 1 1 1 0).Ki
              * ((PID.init 1 1 1 0).Ci + 2 * ((1 : ℚ) - (PID.init 1 1 1 0).previous_time))
            + (PID.init 1 1 1 0).Kd
              * (((2 : ℚ) - (PID.init 1 1 1 0).previous_error)
                / ((1 : ℚ) - (PID.init 1 1 1 0).previous_time))) :=
  ⟨by norm_num [PID.init],
    update_dt_pos_spec (PID.init 1 1 1 0) 2 1 (by norm_num [PID.init])⟩

/-- C2: for every controller state and every call `update(error, current_time)`
with `dt = current_time - previous_time ≤ 0`, the call returns exactly zero
and leaves `previous_time`, `previous_error` and the integral accumulator
unchanged; calling `update` twice with the same non-increasing timestamp
changes none of that state between the two calls. -/
theorem update_dt_nonpos_noop (s : PID) (e t : ℚ)
    (h : t - s.previous_time ≤ 0) :
    (s.Update e t).2 = 0 ∧
      (s.Update e t).1.previous_time = s.previous_time ∧
      (s.Update e t).1.previous_error = s.previous_error ∧
      (s.Update e t).1.Ci = s.Ci ∧
      ((s.Update e t).1.Update e t).1 = (s.Update e t).1 := by
  have h1 : s.Update e t = (s, 0) := PID.update_noop s e t h
  rw [h1]
  exact ⟨rfl, rfl, rfl, rfl, by rw [PID.update_noop s e t h]⟩

/-- Witness for C2 at the concrete state `PID.init 1 2 3 5` with
`error = 7`, `current_time = 5` (so `dt = 0`). -/
theorem update_dt_nonpos_noop_witness :
    (5 : ℚ) - (PID.init 1 2 3 5).previous_time ≤ 0 ∧
      (((PID.init 1 2 3 5).Update 7 5).2 = 0 ∧
        ((PID.init 1 2 3 5).Update 7 5).1.previous_time
          = (PID.init 1 2 3 5).previous_time ∧
        ((PID.init 1 2 3 5).Update 7 5).1.previous_error
          = (PID.init 1 2 3 5).previous_error ∧
        ((PID.init 1 2 3 5).Update 7 5).1.Ci = (PID.init 1 2 3 5).Ci ∧
        (((PID.init 1 2 3 5).Update 7 5).1.Update 7 5).1
          = ((PID.init 1 2 3 5).Update 7 5).1) :=
  ⟨by norm_num [PID.init],
    update_dt_nonpos_noop (PID.init 1 2 3 5) 7 5 (by norm_num [PID.init])⟩

/-- C3: `Update` raises no exception for any input.  `UpdateE` mirrors the
Python method with its single possible failure point — the division
`de / dt`, which raises `ZeroDivisionError` when `dt = 0` — made explicit;
for every state and input it returns `Except.ok` of exactly what `Update`
computes, so the division is only ever reached with `dt > 0` and the
failure branch is unreachable. -/
theorem updateE_never_raises (s : PID) (e t : ℚ) :
    s.UpdateE e t = Except.ok (s.Update e t) := by
  simp only [PID.UpdateE, PID.Update]
  by_cases h : t - s.previous_time ≤ 0
  · rw [if_pos h, if_pos h]
  · rw [if_neg h, if_neg h, if_neg (fun h0 => h (le_of_eq h0))]

/-- C4: a controller built at origin `t0` with `Kp = 1`, `Ki = 0`, `Kd = 0`
returns exactly `5` from the single call `update(5, t0 + 1)`. -/
theorem update_kp_only (t0 : ℚ) :
    ((PID.init 1 0 0 t0).Update 5 (t0 + 1)).2 = 5 := by
  have h : (0 : ℚ) < (t0 + 1) - (PID.init 1 0 0 t0).previous_time := by
    simp [PID.init]
  rw [PID.update_step _ _ _ h]
  simp [PID.init]

/-- C5: a controller built at origin `t0` with `Kp = 0`, `Ki = 1`, `Kd = 0`
has integral accumulator `2` after `update(2, t0 + 1)` and `4` after the
further call `update(2, t0 + 2)`, and that second call returns exactly `4`. -/
theorem update_ki_accumulates (t0 : ℚ) :
    (((PID.init 0 1 0 t0).Update 2 (t0 + 1)).1).Ci = 2 ∧
      ((((PID.init 0 1 0 t0).Update 2 (t0 + 1)).1).Update 2 (t0 + 2)).1.Ci = 4 ∧
      ((((PID.init 0 1 0 t0).Update 2 (t0 + 1)).1).Update 2 (t0 + 2)).2 = 4 := by
  have h1 : (0 : ℚ) < (t0 + 1) - (PID.init 0 1 0 t0).previous_time := by
    simp [PID.init]
  rw [PID.update_step _ _ _ h1]
  have h2 : (0 : ℚ) <
      (t0 + 2) - ({ PID.init 0 1 0 t0 with
        Cp := 2
        Ci := (PID.init 0 1 0 t0).Ci + 2 * ((t0 + 1) - (PID.init 0 1 0 t0).previous_time)
        Cd := ((2 : ℚ) - (PID.init 0 1 0 t0).previous_error)
          / ((t0 + 1) - (PID.init 0 1 0 t0).previous_time)
        previous_time := t0 + 1
        previous_error := 2 } : PID).previous_time := by
    simp [PID.init]
  rw [PID.update_step _ _ _ h2]
  norm_num [PID.init]

/-- C6: a controller built at origin `t0` with `Kp = 0`, `Ki = 0`, `Kd = 1`
returns exactly `(7 - 3) / 1 = 4` from the second of the calls
`update(3, t0 + 1)` then `update(7, t0 + 2)`. -/
theorem update_kd_difference (t0 : ℚ) :
    ((((PID.init 0 0 1 t0).Update 3 (t0 + 1)).1).Update 7 (t0 + 2)).2 = 4 := by
  have h1 : (0 : ℚ) < (t0 + 1) - (PID.init 0 0 1 t0).previous_time := by
    simp [PID.init]
  rw [PID.update_step _ _ _ h1]
  have h2 : (0 : ℚ) <
      (t0 + 2) - ({ PID.init 0 0 1 t0 with
        Cp := 3
        Ci := (PID.init 0 0 1 t0).Ci + 3 * ((t0 + 1) - (PID.init 0 0 1 t0).previous_time)
        Cd := ((3 : ℚ) - (PID.init 0 0 1 t0).previous_error)
          / ((t0 + 1) - (PID.init 0 0 1 t0).previous_time)
        previous_time := t0 + 1
        previous_error := 3 } : PID).previous_time := by
    simp [PID.init]
  rw [PID.update_step _ _ _ h2]
  simp [PID.init]
  norm_num

/-- C7: the gain fields `Kp`, `Ki`, `Kd` set at construction are unchanged by
every `Update` call, for any inputs and any sequence of calls. -/
theorem gains_immutable (s : PID) (calls : List (ℚ × ℚ)) :
    (s.runUpdates calls).Kp = s.Kp ∧ (s.runUpdates calls).Ki = s.Ki ∧
      (s.runUpdates calls).Kd = s.Kd := by
  induction calls generalizing s with
  | nil => exact ⟨rfl, rfl, rfl⟩
  | cons c rest ih =>
    have hstep := PID.update_gains s c.1 c.2
    have hrest := ih (s.Update c.1 c.2).1
    simp only [PID.runUpdates, List.foldl] at hrest ⊢
    exact ⟨hrest.1.trans hstep.1, hrest.2.1.trans hstep.2.1,
      hrest.2.2.trans hstep.2.2⟩

/-- Two consecutive positive-`dt` updates accumulate `e1*dt1 + e2*dt2`. -/
lemma PID.two_step_Ci (s : PID) (e1 t1 e2 t2 : ℚ)
    (h1 : 0 < t1 - s.previous_time) (h2 : 0 < t2 - t1) :
    (((s.Update e1 t1).1).Update e2 t2).1.Ci =
      s.Ci + e1 * (t1 - s.previous_time) + e2 * (t2 - t1) := by
  rw [PID.update_step _ _ _ h1]
  rw [PID.update_step _ _ _ (by simpa using h2)]

/-- C8 counterexample: supplying the `(error, dt)` pairs `(1, 1)` then
`(1, 2)` — i.e. `update(1, t = 1)` then `update(1, t = 3)` from origin `0` —
and the reordered pairs `(1, 2)` then `(1, 1)` — i.e. `update(1, t = 2)`
then `update(1, t = 3)` — involves two updates with different `dt`
(`1 ≠ 2`), yet both orders leave the integral accumulator at `3`, so
reordering two updates with different `dt` does not always produce a
different accumulator value. -/
theorem reorder_same_Ci_counterexample :
    (1 : ℚ) ≠ 2 ∧
      ((PID.init 0 1 0 0).runUpdates [(1, 1), (1, 3)]).Ci = 3 ∧
      ((PID.init 0 1 0 0).runUpdates [(1, 2), (1, 3)]).Ci = 3 := by
  refine ⟨by norm_num, ?_, ?_⟩ <;>
    norm_num [PID.runUpdates, List.foldl, PID.Update, PID.init]

/-- C8 amended: the integral accumulator after a sequence of updates depends
on how errors are paired with time intervals: reordering two updates with
different `dt` AND different errors — supplying the errors in the opposite
order at the same two timestamps — produces a different accumulator value.
(With equal errors, or when whole `(error, dt)` pairs are permuted together,
the rectangular sums coincide, so no unconditional reordering-sensitivity
holds.) -/
theorem reorder_changes_Ci (Kp Ki Kd t0 e1 e2 dt1 dt2 : ℚ)
    (h1 : 0 < dt1) (h2 : 0 < dt2) (hdt : dt1 ≠ dt2) (he : e1 ≠ e2) :
    ((PID.init Kp Ki Kd t0).runUpdates [(e1, t0 + dt1), (e2, t0 + dt1 + dt2)]).Ci ≠
      ((PID.init Kp Ki Kd t0).runUpdates [(e2, t0 + dt1), (e1, t0 + dt1 + dt2)]).Ci := by
  have hp : (PID.init Kp Ki Kd t0).previous_time = t0 := rfl
  have hc : (PID.init Kp Ki Kd t0).Ci = 0 := rfl
  have hA := PID.two_step_Ci (PID.init Kp Ki Kd t0) e1 (t0 + dt1) e2 (t0 + dt1 + dt2)
    (by rw [hp]; linarith) (by linarith)
  have hB := PID.two_step_Ci (PID.init Kp Ki Kd t0) e2 (t0 + dt1) e1 (t0 + dt1 + dt2)
    (by rw [hp]; linarith) (by linarith)
  simp only [PID.runUpdates, List.foldl]
  rw [hA, hB, hp, hc]
  intro heq
  have hz : (e1 - e2) * (dt1 - dt2) = 0 := by ring_nf; ring_nf at heq; linarith
  rcases mul_eq_zero.mp hz with h0 | h0
  · exact he (sub_eq_zero.mp h0)
  · exact hdt (sub_eq_zero.mp h0)

/-- Witness for the amended C8 at `Kp=0, Ki=1, Kd=0`, origin `0`, errors
`0` and `1`, intervals `1` and `2`. -/
theorem reorder_changes_Ci_witness :
    (0 : ℚ) < 1 ∧ (0 : ℚ) < 2 ∧ (1 : ℚ) ≠ 2 ∧ (0 : ℚ) ≠ 1 ∧
      ((PID.init 0 1 0 0).runUpdates [(0, 0 + 1), (1, 0 + 1 + 2)]).Ci ≠
        ((PID.init 0 1 0 0).runUpdates [(1, 0 + 1), (0, 0 + 1 + 2)]).Ci :=
  ⟨by norm_num, by norm_num, by norm_num, by norm_num,
    reorder_changes_Ci 0 1 0 0 0 1 1 2 (by norm_num) (by norm_num)
      (by norm_num) (by norm_num)⟩

/-- C9: across any sequence of `Update` calls with arbitrary explicit
timestamps (including out-of-order or duplicate ones), `previous_time` is
monotonically non-decreasing: the code writes `previous_time := current_time`
only on the branch where `current_time > previous_time`. -/
theorem previous_time_monotone (s : PID) (calls : List (ℚ × ℚ)) :
    s.previous_time ≤ (s.runUpdates calls).previous_time := by
  induction calls generalizing s with
  | nil => exact le_refl _
  | cons c rest ih =>
    simp only [PID.runUpdates, List.foldl]
    exact le_trans (PID.update_time_mono s c.1 c.2)
      (by simpa [PID.runUpdates] using ih (s.Update c.1 c.2).1)

/-- C10: with an explicit timestamp, `Update` is deterministic — two calls on
controllers with equal state fields and equal `(error, current_time)`
arguments return equal corrections and leave equal state fields, whatever
the wall clock reads (the clock is consulted only on the omitted-timestamp
path). -/
theorem update_deterministic (clock1 clock2 : ℚ) (s1 s2 : PID) (e t : ℚ)
    (hKp : s1.Kp = s2.Kp) (hKi : s1.Ki = s2.Ki) (hKd : s1.Kd = s2.Kd)
    (hCp : s1.Cp = s2.Cp) (hCi : s1.Ci = s2.Ci) (hCd : s1.Cd = s2.Cd)
    (hpt : s1.previous_time = s2.previous_time)
    (hpe : s1.previous_error = s2.previous_error) :
    PID.UpdateOpt clock1 s1 e (some t) = PID.UpdateOpt clock2 s2 e (some t) := by
  have hs : s1 = s2 := by cases s1; cases s2; simp_all
  rw [hs]
  rfl

/-- Witness for C10: equal concrete controllers and arguments, different
wall clocks, equal results. -/
theorem update_deterministic_witness :
    (PID.init 1 2 3 4).Kp = (PID.init 1 2 3 4).Kp ∧
      PID.UpdateOpt 10 (PID.init 1 2 3 4) 1 (some 5)
        = PID.UpdateOpt 20 (PID.init 1 2 3 4) 1 (some 5) :=
  ⟨rfl, update_deterministic 10 20 (PID.init 1 2 3 4) (PID.init 1 2 3 4) 1 5
    rfl rfl rfl rfl rfl rfl rfl rfl⟩
